import Mathlib

/-!
Daily check-in: attendance store, reminder and summary passes, scheduler.

A shallow embedding of `src/main.go`.

* The SQLite table `checkin_records` is a list of rows together with the
  `AUTOINCREMENT` counter; a database handle that cannot be used is a store whose
  `fault` is set, every statement on it returns that error.
* The process state read and written by the handlers and the two timed tasks is a
  `World`: the store, the regular files and directories below the working
  directory, and the trace of the calls the claims speak about.
* Every `time.Now()` is an explicit argument (one per call site), as are the
  outcomes of the operating-system and SMTP calls and the results of `time.Parse`
  and `time.Date`.
* `log.Printf` writes to the process log only and is left out.
-/

namespace DailyCheckIn

/-! ## Data model -/

/-- Person of the roster (`type Person struct`). -/
structure Person where
  Name : String
  Email : String
  Avatar : String
deriving DecidableEq, Repr

/-- Settings read by `getConfig` (`type Config struct`). -/
structure Config where
  CheckInPersonList : List Person
  MentionTime : String
  CheckInTime : String
  TokenMd5 : String
  SMTPHost : String
  SMTPPort : Int
  SMTPUser : String
  SMTPPassword : String
  FromEmail : String
deriving DecidableEq, Repr

/-- Response body of the handlers (`type Response struct`); `Data` is the
string map the upload handler returns, empty when the field is omitted. -/
structure Response where
  Code : Nat
  Message : String
  Data : List (String × String)
deriving DecidableEq, Repr

/-- One reading of `time.Now()`: the calendar day as printed by
`Format("2006-01-02")` and the local time of day. -/
structure Time where
  date : String
  hour : Fin 24
  minute : Fin 60
  second : Fin 60
deriving DecidableEq, Repr

/-- Seconds since local midnight of a clock reading. -/
def Time.secOfDay (t : Time) : Nat :=
  t.hour.val * 3600 + t.minute.val * 60 + t.second.val

/-- The package variable `uploadDir`. -/
def uploadDir : String := "uploads"

/-! ## Attendance store -/

/-- Row of `checkin_records`. -/
structure Row where
  id : Nat
  name : String
  date : String
  file_path : String
  created_at : Time
deriving DecidableEq, Repr

/-- The table `checkin_records` created by `initDB`: its rows, the largest row id
handed out so far (`AUTOINCREMENT`), and the error every statement returns when the
handle is unusable. -/
structure Db where
  rows : List Row
  seq : Nat
  fault : Option String
deriving DecidableEq, Repr

/-- Row id given to the next inserted row: one more than every id in use and every
id handed out before. -/
def Db.nextId (db : Db) : Nat :=
  (db.rows.foldl (fun m r => max m r.id) db.seq) + 1

/-- Rows of the pair `(name, date)`, the key of `UNIQUE(name, date)`. -/
def Db.recordsFor (db : Db) (name date : String) : List Row :=
  db.rows.filter (fun r => decide (r.name = name ∧ r.date = date))

/-- Embedding of `saveCheckInRecord`: `INSERT OR REPLACE INTO checkin_records (name, date,
file_path, created_at) VALUES (?, ?, ?, ?)`. The rows that collide with the new
one on `UNIQUE(name, date)` are deleted, then the new row is inserted under a
fresh id. `now` is the `time.Now()` bound to `created_at`. -/
def saveCheckInRecord (db : Db) (name date filePath : String) (now : Time) :
    Except String Db :=
  match db.fault with
  | some err => .error err
  | none =>
    let id := db.nextId
    .ok { db with
      rows := db.rows.filter (fun r => !decide (r.name = name ∧ r.date = date))
        ++ [{ id := id, name := name, date := date, file_path := filePath,
              created_at := now }],
      seq := id }

/-- Embedding of `deleteCheckInRecords`: `DELETE FROM checkin_records WHERE date = ?`. -/
def deleteCheckInRecords (db : Db) (date : String) : Except String Db :=
  match db.fault with
  | some err => .error err
  | none => .ok { db with rows := db.rows.filter (fun r => !decide (r.date = date)) }

/-- The query of `checkUserUploaded`:
`SELECT COUNT(*) FROM checkin_records WHERE name = ? AND date = ?`. -/
def queryCount (db : Db) (name date : String) : Except String Nat :=
  match db.fault with
  | some err => .error err
  | none => .ok (db.recordsFor name date).length

/-- Embedding of `checkUserUploaded`: false when the query fails, otherwise `count > 0`. -/
def checkUserUploaded (db : Db) (name date : String) : Bool :=
  match queryCount db name date with
  | .error _ => false
  | .ok count => decide (count > 0)

/-! ## Files, mail and the call trace -/

/-- Calls recorded in the trace of a run. -/
inductive Event where
  | mentionTask (today : String)
  | checkInTask (today : String)
  | sendEmail (rcpt : List String) (subject body : String)
  | smtpSendMail (addr sender : String) (rcpt : List String) (msg : String)
  | deleteUploads (dateDir : String)
deriving DecidableEq, Repr

/-- State of the process: the attendance store, the regular files and the
directories below the working directory, and the calls made so far. -/
structure World where
  db : Db
  files : List String
  dirs : List String
  trace : List Event
deriving DecidableEq, Repr

/-- Embedding of `filepath.Join`: the non-empty elements joined by the separator.
The elements used here (`uploads`, a printed date, a file name) are already clean. -/
def filepathJoin (elems : List String) : String :=
  "/".intercalate (elems.filter (fun e => !decide (e = "")))

/-- Whether `path` is `dir` itself or lies below it. -/
def underDir (dir path : String) : Bool :=
  decide (path = dir) || (dir ++ "/").data.isPrefixOf path.data

/-- Outcome of `smtp.SendMail`, which may depend on everything done so far: the
trace up to and including the `smtpSendMail` call. `none` is a nil error. -/
abbrev SmtpOracle := List Event → Option String

/-- Embedding of `sendEmail` (`rcpt` is its parameter `to`): returns nil without
sending when the SMTP settings are incomplete, otherwise the error of
`smtp.SendMail`. Its `getConfig()` returns the settings `cfg` of the calling pass:
`loadConfig` runs once, before the scheduler starts. -/
def sendEmail (cfg : Config) (smtp : SmtpOracle) (rcpt : List String)
    (subject body : String) (w : World) : Option String × World :=
  let w1 := { w with trace := w.trace ++ [Event.sendEmail rcpt subject body] }
  if cfg.SMTPHost = "" ∨ cfg.SMTPUser = "" ∨ cfg.SMTPPassword = "" then
    (none, w1)
  else
    let msg := "From: " ++ cfg.FromEmail ++ "\r\n" ++
      "To: " ++ ",".intercalate rcpt ++ "\r\n" ++
      "Subject: " ++ subject ++ "\r\n" ++
      "Content-Type: text/plain; charset=UTF-8\r\n" ++
      "\r\n" ++
      body
    let addr := cfg.SMTPHost ++ ":" ++ toString cfg.SMTPPort
    let tr := w1.trace ++ [Event.smtpSendMail addr cfg.FromEmail rcpt msg]
    (smtp tr, { w1 with trace := tr })

/-! ## Reminder pass -/

/-- Subject of the reminder mail. -/
def mentionSubject : String := "打卡提醒"

/-- Body of the reminder mail for the person called `name`. -/
def mentionBody (name : String) : String :=
  "亲爱的 " ++ name ++ "：\n\n您今天还未完成打卡，请尽快上传打卡凭证。\n\n此邮件为系统自动发送，请勿回复。"

/-- One iteration of the loop of `mentionTask`. -/
def mentionPerson (cfg : Config) (smtp : SmtpOracle) (today : String) (w : World)
    (person : Person) : World :=
  if !checkUserUploaded w.db person.Name today then
    if person.Email ≠ "" then
      (sendEmail cfg smtp [person.Email] mentionSubject (mentionBody person.Name) w).2
    else w
  else w

/-- Embedding of `mentionTask`; `today` is its `time.Now().Format("2006-01-02")`. -/
def mentionTask (cfg : Config) (smtp : SmtpOracle) (today : String) (w : World) : World :=
  cfg.CheckInPersonList.foldl (mentionPerson cfg smtp today)
    { w with trace := w.trace ++ [Event.mentionTask today] }

/-! ## Summary pass -/

/-- Embedding of `deleteUploads`; `today` is its own `time.Now().Format("2006-01-02")`,
`removeErr` and `mkdirErr` the errors of `os.RemoveAll` and `os.MkdirAll`. A failed
`os.RemoveAll` is taken to have removed nothing. -/
def deleteUploads (today : String) (removeErr mkdirErr : Option String) (w : World) :
    World :=
  let dateDir := filepathJoin [uploadDir, today] ++ ""
  let w1 := { w with trace := w.trace ++ [Event.deleteUploads dateDir] }
  match removeErr with
  | some _ => w1
  | none =>
    let w2 := { w1 with
      files := w1.files.filter (fun f => !underDir dateDir f),
      dirs := w1.dirs.filter (fun d => !underDir dateDir d) }
    match mkdirErr with
    | some _ => w2
    | none => { w2 with dirs := w2.dirs ++ [dateDir] }

/-- The first loop of `checkInTask`: the roster members without a record and the
non-empty addresses of the whole roster, both in roster order. -/
def collectSummary (db : Db) (today : String) :
    List Person → List Person × List String → List Person × List String
  | [], acc => acc
  | person :: rest, (notUploaded, allEmails) =>
    let allEmails1 := if person.Email ≠ "" then allEmails ++ [person.Email] else allEmails
    let notUploaded1 :=
      if !checkUserUploaded db person.Name today then notUploaded ++ [person]
      else notUploaded
    collectSummary db today rest (notUploaded1, allEmails1)

/-- Subject of the digest. -/
def digestSubject : String := "每日打卡未完成人员通知"

/-- Line of the digest for one person. -/
def digestLine (person : Person) : String :=
  "姓名: " ++ person.Name ++ ", 邮箱: " ++ person.Email ++ "\n"

/-- Body of the digest built by the `strings.Builder`. -/
def digestBody (notUploaded : List Person) : String :=
  notUploaded.foldl (fun b person => b ++ digestLine person) "以下人员今日未完成打卡：\n\n"
    ++ "\n此邮件为系统自动发送，请勿回复。"

/-- Embedding of `checkInTask`; `today` is its `time.Now().Format("2006-01-02")`, `purgeToday`
the one read later inside `deleteUploads`. -/
def checkInTask (cfg : Config) (smtp : SmtpOracle) (today purgeToday : String)
    (removeErr mkdirErr : Option String) (w : World) : World :=
  let w0 := { w with trace := w.trace ++ [Event.checkInTask today] }
  let (notUploaded, allEmails) := collectSummary w0.db today cfg.CheckInPersonList ([], [])
  if notUploaded.length > 0 ∧ allEmails.length > 0 then
    match sendEmail cfg smtp allEmails digestSubject (digestBody notUploaded) w0 with
    | (some _, w1) => w1
    | (none, w1) => deleteUploads purgeToday removeErr mkdirErr w1
  else if notUploaded.length = 0 then
    deleteUploads purgeToday removeErr mkdirErr w0
  else
    w0

/-! ## Scheduler -/

/-- Inputs of one iteration of the loop of `startScheduler`: the clock reading
`now`, the settings returned by `getConfig` (those `main` loaded when the process
started), and what the tasks started in this iteration read from the clock and get
back from the operating system. -/
structure Tick where
  now : Time
  cfg : Config
  mentionNow : Time
  checkInNow : Time
  purgeNow : Time
  removeErr : Option String
  mkdirErr : Option String

/-- Result of `time.Parse("15:04", s)`: the hour and minute, `none` for an error. -/
abbrev ClockParse := String → Option (Fin 24 × Fin 60)

/-- The `Hour()` and `Minute()` of `time.Date(y, mo, d, h, m, 0, 0, loc)`, where
`y`, `mo`, `d` are the day printed as the first argument and `loc` is the location
of the process. They are `h` and `m` again unless that local time does not exist on
that day (the gap of a daylight-saving change), which `time.Date` moves to a time
that does. -/
abbrev DateClock := String → Fin 24 → Fin 60 → Fin 24 × Fin 60

/-- The hour and minute at which a mark fires on the day `date`: those of
`time.Date` of that day with the parsed hour and minute, `none` when the mark does
not parse. -/
def markTarget (parse : ClockParse) (dateClock : DateClock) (date mark : String) :
    Option (Fin 24 × Fin 60) :=
  match parse mark with
  | some (h, m) => some (dateClock date h m)
  | none => none

/-- Body of the loop of `startScheduler`. -/
def schedulerStep (parse : ClockParse) (dateClock : DateClock) (smtp : SmtpOracle)
    (w : World) (t : Tick) : World :=
  let w1 :=
    match parse t.cfg.MentionTime with
    | some (h, m) =>
      let mentionDateTime := dateClock t.now.date h m
      if t.now.hour = mentionDateTime.1 ∧ t.now.minute = mentionDateTime.2 then
        mentionTask t.cfg smtp t.mentionNow.date w
      else w
    | none => w
  match parse t.cfg.CheckInTime with
  | some (h, m) =>
    let checkInDateTime := dateClock t.now.date h m
    if t.now.hour = checkInDateTime.1 ∧ t.now.minute = checkInDateTime.2 then
      checkInTask t.cfg smtp t.checkInNow.date t.purgeNow.date t.removeErr t.mkdirErr w1
    else w1
  | none => w1

/-- The loop of `startScheduler` run over the given iterations. The loop keeps no
state of its own, so a process that is stopped and started again continues from the
state left on disk. -/
def startScheduler (parse : ClockParse) (dateClock : DateClock) (smtp : SmtpOracle)
    (w : World) (ticks : List Tick) : World :=
  ticks.foldl (schedulerStep parse dateClock smtp) w

/-- Whether each iteration reads the clock at least one minute of local time after
the one before, as the `time.Sleep(time.Minute)` between them gives on a clock that
is not set back. -/
def minuteApart : List Tick → Bool
  | a :: b :: rest =>
    decide (a.now.secOfDay + 60 ≤ b.now.secOfDay) && minuteApart (b :: rest)
  | _ => true

/-- Number of times `mentionTask` was entered. -/
def mentionRuns (w : World) : Nat :=
  w.trace.countP (fun e => match e with | .mentionTask _ => true | _ => false)

/-- Number of times `checkInTask` was entered. -/
def checkInRuns (w : World) : Nat :=
  w.trace.countP (fun e => match e with | .checkInTask _ => true | _ => false)

/-- The calls of `sendEmail` in a trace: recipients, subject, body. -/
def sendEmailCalls (tr : List Event) : List (List String × String × String) :=
  tr.filterMap (fun e => match e with | .sendEmail rcpt s b => some (rcpt, s, b) | _ => none)

/-- The directories `deleteUploads` was called on. -/
def purgeCalls (tr : List Event) : List String :=
  tr.filterMap (fun e => match e with | .deleteUploads d => some d | _ => none)

/-- Model of `time.Parse` for the layout `15:04`: one or two digits of hour below
24, a colon, exactly two digits of minute below 60, and nothing after. -/
def parseClock (s : String) : Option (Fin 24 × Fin 60) :=
  match s.data with
  | [] => none
  | h1 :: rest =>
    if !h1.isDigit then none
    else
      let hr : Nat × List Char :=
        match rest with
        | [] => (h1.toNat - 48, [])
        | h2 :: rest2 =>
          if h2.isDigit then ((h1.toNat - 48) * 10 + (h2.toNat - 48), rest2)
          else (h1.toNat - 48, rest)
      if hh : hr.1 < 24 then
        match hr.2 with
        | [':', m1, m2] =>
          if m1.isDigit ∧ m2.isDigit then
            if hm : (m1.toNat - 48) * 10 + (m2.toNat - 48) < 60 then
              some (⟨hr.1, hh⟩, ⟨(m1.toNat - 48) * 10 + (m2.toNat - 48), hm⟩)
            else none
          else none
        | _ => none
      else none

/-! ## Upload handler -/

/-- The part of the multipart file header the handler reads. -/
structure FileHeader where
  Filename : String
  ContentType : String
deriving DecidableEq, Repr

/-- The upload request: the form field `name` and the file `image`, `none` when
`FormFile` returns an error. -/
structure UploadForm where
  name : String
  image : Option FileHeader
deriving DecidableEq, Repr

/-- Scan of `filepath.Ext` from the end of the path: `rev` is what is still to be
read, backwards, `acc` what has been read. -/
def extScan : List Char → List Char → String
  | [], _ => ""
  | c :: rest, acc =>
    if c = '/' then ""
    else if c = '.' then String.mk ('.' :: acc)
    else extScan rest (c :: acc)

/-- Embedding of `filepath.Ext`: the suffix beginning at the last dot of the last element. -/
def filepathExt (path : String) : String :=
  extScan path.data.reverse []

/-- Embedding of `strings.ReplaceAll(name, " ", "_")`. -/
def safeFileName (name : String) : String :=
  String.mk (name.data.map (fun c => if c = ' ' then '_' else c))

/-- Embedding of `getUploadFilePath`. -/
def getUploadFilePath (name date ext : String) : String :=
  filepathJoin [uploadDir, date, safeFileName name ++ ext]

/-- Whether `file` matches the pattern `dateDir/base.*` of `filepath.Glob`, for a
`base` without pattern characters: a direct child of `dateDir` whose name begins
with `base` and a dot. -/
def globMatch (dateDir base file : String) : Bool :=
  (dateDir ++ "/").data.isPrefixOf file.data &&
  (let child := file.data.drop (dateDir ++ "/").data.length
   !child.contains '/' && (base ++ ".").data.isPrefixOf child)

/-- Embedding of `deleteExistingFiles`: removes the files of the person in the directory of the
day, whatever their extension. -/
def deleteExistingFiles (name date : String) (w : World) : World :=
  let dateDir := filepathJoin [uploadDir, date]
  { w with files := w.files.filter (fun f => !globMatch dateDir (safeFileName name) f) }

/-- Embedding of `uploadCheckInProof`. `today` is the date read by the handler, `saveNow` the
clock reading inside `saveCheckInRecord`, `mkdirErr` and `saveErr` the errors of
`os.MkdirAll` and `c.SaveUploadedFile`. -/
def uploadCheckInProof (cfg : Config) (form : UploadForm) (today : String)
    (saveNow : Time) (mkdirErr saveErr : Option String) (w : World) :
    Response × World :=
  let name := form.name
  if name = "" then
    ({ Code := 400, Message := "缺少name参数", Data := [] }, w)
  else if !cfg.CheckInPersonList.any (fun person => decide (person.Name = name)) then
    ({ Code := 400, Message := "name不在打卡人员列表中", Data := [] }, w)
  else
    match form.image with
    | none => ({ Code := 400, Message := "请上传图片文件", Data := [] }, w)
    | some file =>
      if !"image/".data.isPrefixOf file.ContentType.data then
        ({ Code := 400, Message := "只支持上传图片文件", Data := [] }, w)
      else
        let ext := if filepathExt file.Filename = "" then ".jpg" else filepathExt file.Filename
        let dateDir := filepathJoin [uploadDir, today]
        match mkdirErr with
        | some _ => ({ Code := 500, Message := "创建目录失败", Data := [] }, w)
        | none =>
          let w1 := { w with dirs := if dateDir ∈ w.dirs then w.dirs else w.dirs ++ [dateDir] }
          let filePath := getUploadFilePath name today ext
          let w2 := deleteExistingFiles name today w1
          match saveErr with
          | some _ => ({ Code := 500, Message := "保存文件失败", Data := [] }, w2)
          | none =>
            let w3 := { w2 with
              files := if filePath ∈ w2.files then w2.files else w2.files ++ [filePath] }
            let w4 :=
              match saveCheckInRecord w3.db name today filePath saveNow with
              | .error _ => w3
              | .ok db1 => { w3 with db := db1 }
            ({ Code := 200, Message := "上传成功",
               Data := [("date", today), ("filePath", filePath), ("name", name)] }, w4)

/-! ## Sample data -/

/-- Roster of three: Alice and Carol with an address, Bob without. -/
def sampleRoster : List Person :=
  [{ Name := "Alice", Email := "a@x", Avatar := "" },
   { Name := "Bob", Email := "", Avatar := "" },
   { Name := "Carol", Email := "c@x", Avatar := "" }]

/-- Settings with the sample roster, a reminder at 09:00, a summary at 23:59 and no
SMTP account. -/
def sampleConfig : Config :=
  { CheckInPersonList := sampleRoster, MentionTime := "09:00", CheckInTime := "23:59",
    TokenMd5 := "", SMTPHost := "", SMTPPort := 0, SMTPUser := "", SMTPPassword := "",
    FromEmail := "" }

/-- The same settings with an SMTP account. -/
def sampleSmtpConfig : Config :=
  { sampleConfig with
    SMTPHost := "smtp.example.org", SMTPPort := 587, SMTPUser := "bot",
    SMTPPassword := "secret", FromEmail := "bot@example.org" }

/-- A clock reading on 2024-01-01. -/
def sampleTime (h : Fin 24) (m s : Fin 60) : Time :=
  { date := "2024-01-01", hour := h, minute := m, second := s }

/-- A usable store in which Alice has checked in on 2024-01-01. -/
def sampleDb : Db :=
  { rows := [{ id := 1, name := "Alice", date := "2024-01-01",
               file_path := "uploads/2024-01-01/Alice.png",
               created_at := sampleTime 8 0 0 }],
    seq := 1, fault := none }

/-- The process with the sample store and Alice's evidence on disk. -/
def sampleWorld : World :=
  { db := sampleDb, files := ["uploads/2024-01-01/Alice.png"],
    dirs := ["uploads", "uploads/2024-01-01"], trace := [] }

/-- An SMTP server that accepts every message. -/
def smtpAccepts : SmtpOracle := fun _ => none

/-- An SMTP server that rejects every message. -/
def smtpRejects : SmtpOracle := fun _ => some "dial tcp: connection refused"

/-- The clock of a location without daylight-saving changes: every local time
exists. -/
def plainDateClock : DateClock := fun _ h m => (h, m)

/-- The clock of a location that moves from 02:00 to 03:00 on 2024-03-31: on that
day the hour 2 does not exist and `time.Date` gives the hour 3. -/
def springForwardClock : DateClock :=
  fun date h m => if date = "2024-03-31" ∧ h = 2 then (3, m) else (h, m)

/-- A clock reading on 2024-03-31. -/
def marchTime (h : Fin 24) (m s : Fin 60) : Time :=
  { date := "2024-03-31", hour := h, minute := m, second := s }

/-- The sample process when every statement on the store returns an error although
Alice's row is in the table. -/
def lockedWorld : World :=
  { sampleWorld with db := { sampleDb with fault := some "database is locked" } }

/-- Settings with an SMTP account whose roster is Alice alone. -/
def soloSmtpConfig : Config :=
  { sampleSmtpConfig with
    CheckInPersonList := [{ Name := "Alice", Email := "a@x", Avatar := "" }] }

/-- An iteration of the scheduler loop in which every later clock reading of the
iteration equals `now` and the operating system reports no error. -/
def sampleTick (now : Time) (cfg : Config) : Tick :=
  { now := now, cfg := cfg, mentionNow := now, checkInNow := now, purgeNow := now,
    removeErr := none, mkdirErr := none }

/-- The sample settings with another reminder mark. -/
def configWithMention (mark : String) : Config :=
  { sampleConfig with MentionTime := mark }

/-- Settings whose roster is Alice alone. -/
def soloConfig : Config :=
  { sampleConfig with CheckInPersonList := [{ Name := "Alice", Email := "a@x", Avatar := "" }] }

/-- The sample process with a store whose handle returns an error on every
statement. -/
def faultyWorld : World :=
  { sampleWorld with db := { rows := [], seq := 0, fault := some "database is locked" } }

/-- The sample store after Alice uploads again, a `.jpg` this time. -/
def sampleDbSaved : Db :=
  { rows := [{ id := 2, name := "Alice", date := "2024-01-01",
               file_path := "uploads/2024-01-01/Alice.jpg",
               created_at := sampleTime 8 30 0 }],
    seq := 2, fault := none }

/-- The sample store after a third upload by Alice. -/
def sampleDbSavedAgain : Db :=
  { rows := [{ id := 3, name := "Alice", date := "2024-01-01",
               file_path := "uploads/2024-01-01/Alice.gif",
               created_at := sampleTime 8 45 0 }],
    seq := 3, fault := none }

/-- The sample store with the rows of 2024-01-01 deleted. -/
def sampleDbPurged : Db :=
  { rows := [], seq := 1, fault := none }

/-! ## Store lemmas -/

theorem recordsFor_after_save (db db1 : Db) (P D loc : String) (t : Time)
    (h : saveCheckInRecord db P D loc t = .ok db1) :
    db1.fault = none ∧
    db1.recordsFor P D =
      [{ id := db.nextId, name := P, date := D, file_path := loc, created_at := t }] := by
  unfold saveCheckInRecord at h
  cases hf : db.fault with
  | some e => rw [hf] at h; cases h
  | none =>
    rw [hf] at h
    simp only [Except.ok.injEq] at h
    subst h
    refine ⟨rfl, ?_⟩
    simp [Db.recordsFor, List.filter_append, List.filter_filter]

theorem checkUserUploaded_of_records (db : Db) (P D : String) (r : Row)
    (hf : db.fault = none) (hr : db.recordsFor P D = [r]) :
    checkUserUploaded db P D = true := by
  simp [checkUserUploaded, queryCount, hf, hr]

/-- On a usable store `checkUserUploaded` is true exactly when the pair has a row. -/
theorem checkUserUploaded_eq (db : Db) (P D : String) (hf : db.fault = none) :
    checkUserUploaded db P D = !(db.recordsFor P D).isEmpty := by
  simp only [checkUserUploaded, queryCount, hf]
  cases db.recordsFor P D <;> simp

/-! ## Claims on the store -/

/-- C1: after a successful `saveCheckInRecord(P, D, loc)` the query
`checkUserUploaded(P, D)` is true; after a further successful
`saveCheckInRecord(P, D, loc2)` it is still true and the store holds exactly one
row for `(P, D)`, whose `file_path` is `loc2`. -/
theorem save_then_uploaded_and_overwrite (db db1 db2 : Db) (P D loc loc2 : String)
    (t1 t2 : Time)
    (h1 : saveCheckInRecord db P D loc t1 = .ok db1)
    (h2 : saveCheckInRecord db1 P D loc2 t2 = .ok db2) :
    checkUserUploaded db1 P D = true ∧
    checkUserUploaded db2 P D = true ∧
    (db2.recordsFor P D).length = 1 ∧
    (db2.recordsFor P D).map (fun r => r.file_path) = [loc2] := by
  obtain ⟨hf1, hr1⟩ := recordsFor_after_save db db1 P D loc t1 h1
  obtain ⟨hf2, hr2⟩ := recordsFor_after_save db1 db2 P D loc2 t2 h2
  refine ⟨checkUserUploaded_of_records db1 P D _ hf1 hr1,
    checkUserUploaded_of_records db2 P D _ hf2 hr2, ?_, ?_⟩
  · rw [hr2]; rfl
  · rw [hr2]; rfl

/-- C9: after a successful `deleteCheckInRecords(D)` the query
`checkUserUploaded(P, D)` is false for every person `P`, and deleting again for `D`
succeeds and leaves the store as it is. -/
theorem delete_records_clears_and_idempotent (db db1 : Db) (D : String)
    (h : deleteCheckInRecords db D = .ok db1) :
    (∀ P : String, checkUserUploaded db1 P D = false) ∧
    deleteCheckInRecords db1 D = .ok db1 := by
  unfold deleteCheckInRecords at h
  cases hf : db.fault with
  | some e => rw [hf] at h; cases h
  | none =>
    rw [hf] at h
    simp only [Except.ok.injEq] at h
    subst h
    constructor
    · intro P
      simp only [checkUserUploaded, queryCount, Db.recordsFor, List.filter_filter]
      have : List.filter (fun r : Row => decide (r.name = P ∧ r.date = D) &&
          !decide (r.date = D)) db.rows = [] := by
        rw [List.filter_eq_nil_iff]
        intro r _
        by_cases hd : r.date = D <;> simp [hd]
      simp [this]
    · simp [deleteCheckInRecords, List.filter_filter]

/-! ## Frame and trace lemmas -/

theorem sendEmail_db (cfg : Config) (smtp : SmtpOracle) (r : List String) (s b : String)
    (w : World) : (sendEmail cfg smtp r s b w).2.db = w.db := by
  unfold sendEmail; split <;> rfl

theorem sendEmail_files (cfg : Config) (smtp : SmtpOracle) (r : List String)
    (s b : String) (w : World) : (sendEmail cfg smtp r s b w).2.files = w.files := by
  unfold sendEmail; split <;> rfl

theorem sendEmail_calls (cfg : Config) (smtp : SmtpOracle) (r : List String)
    (s b : String) (w : World) :
    sendEmailCalls (sendEmail cfg smtp r s b w).2.trace =
      sendEmailCalls w.trace ++ [(r, s, b)] := by
  unfold sendEmail; split <;> simp [sendEmailCalls, List.filterMap_append]

theorem sendEmail_purgeCalls (cfg : Config) (smtp : SmtpOracle) (r : List String)
    (s b : String) (w : World) :
    purgeCalls (sendEmail cfg smtp r s b w).2.trace = purgeCalls w.trace := by
  unfold sendEmail; split <;> simp [purgeCalls, List.filterMap_append]

theorem sendEmail_mentionRuns (cfg : Config) (smtp : SmtpOracle) (r : List String)
    (s b : String) (w : World) :
    mentionRuns (sendEmail cfg smtp r s b w).2 = mentionRuns w := by
  unfold sendEmail; split <;> simp [mentionRuns, List.countP_append]

theorem sendEmail_checkInRuns (cfg : Config) (smtp : SmtpOracle) (r : List String)
    (s b : String) (w : World) :
    checkInRuns (sendEmail cfg smtp r s b w).2 = checkInRuns w := by
  unfold sendEmail; split <;> simp [checkInRuns, List.countP_append]

theorem mentionPerson_db (cfg : Config) (smtp : SmtpOracle) (today : String) (w : World)
    (p : Person) : (mentionPerson cfg smtp today w p).db = w.db := by
  unfold mentionPerson
  split
  · split
    · exact sendEmail_db ..
    · rfl
  · rfl

theorem mentionPerson_mentionRuns (cfg : Config) (smtp : SmtpOracle) (today : String)
    (w : World) (p : Person) :
    mentionRuns (mentionPerson cfg smtp today w p) = mentionRuns w := by
  unfold mentionPerson
  split
  · split
    · exact sendEmail_mentionRuns ..
    · rfl
  · rfl

theorem mentionPerson_checkInRuns (cfg : Config) (smtp : SmtpOracle) (today : String)
    (w : World) (p : Person) :
    checkInRuns (mentionPerson cfg smtp today w p) = checkInRuns w := by
  unfold mentionPerson
  split
  · split
    · exact sendEmail_checkInRuns ..
    · rfl
  · rfl

/-- The reminders sent by the loop of `mentionTask` over the persons `l`. -/
theorem mentionLoop_calls (cfg : Config) (smtp : SmtpOracle) (today : String)
    (l : List Person) (w : World) :
    (l.foldl (mentionPerson cfg smtp today) w).db = w.db ∧
    sendEmailCalls (l.foldl (mentionPerson cfg smtp today) w).trace =
      sendEmailCalls w.trace ++
        (l.filter (fun p => !checkUserUploaded w.db p.Name today && !decide (p.Email = ""))).map
          (fun p => ([p.Email], mentionSubject, mentionBody p.Name)) := by
  induction l generalizing w with
  | nil => simp
  | cons p rest ih =>
    obtain ⟨ihdb, ihc⟩ := ih (mentionPerson cfg smtp today w p)
    rw [List.foldl_cons]
    refine ⟨by rw [ihdb, mentionPerson_db], ?_⟩
    rw [ihc, mentionPerson_db]
    unfold mentionPerson
    by_cases hu : checkUserUploaded w.db p.Name today = true
    · simp [hu]
    · by_cases he : p.Email = ""
      · simp [hu, he]
      · simp [hu, he, sendEmail_calls]

theorem mentionLoop_runs (cfg : Config) (smtp : SmtpOracle) (today : String)
    (l : List Person) (w : World) :
    mentionRuns (l.foldl (mentionPerson cfg smtp today) w) = mentionRuns w ∧
    checkInRuns (l.foldl (mentionPerson cfg smtp today) w) = checkInRuns w := by
  induction l generalizing w with
  | nil => simp
  | cons p rest ih =>
    obtain ⟨h1, h2⟩ := ih (mentionPerson cfg smtp today w p)
    rw [List.foldl_cons, h1, h2, mentionPerson_mentionRuns, mentionPerson_checkInRuns]
    exact ⟨rfl, rfl⟩

theorem mentionTask_runs (cfg : Config) (smtp : SmtpOracle) (today : String) (w : World) :
    mentionRuns (mentionTask cfg smtp today w) = mentionRuns w + 1 ∧
    checkInRuns (mentionTask cfg smtp today w) = checkInRuns w := by
  unfold mentionTask
  obtain ⟨h1, h2⟩ := mentionLoop_runs cfg smtp today cfg.CheckInPersonList
    { w with trace := w.trace ++ [Event.mentionTask today] }
  rw [h1, h2]
  simp [mentionRuns, checkInRuns, List.countP_append]

theorem deleteUploads_db (today : String) (re me : Option String) (w : World) :
    (deleteUploads today re me w).db = w.db := by
  unfold deleteUploads
  cases re <;> cases me <;> rfl

theorem deleteUploads_trace (today : String) (re me : Option String) (w : World) :
    (deleteUploads today re me w).trace =
      w.trace ++ [Event.deleteUploads (filepathJoin [uploadDir, today] ++ "")] := by
  unfold deleteUploads
  cases re <;> cases me <;> rfl

/-- The two lists built by the first loop of `checkInTask`. -/
theorem collectSummary_eq (db : Db) (today : String) (l : List Person)
    (nu : List Person) (ae : List String) :
    collectSummary db today l (nu, ae) =
      (nu ++ l.filter (fun p => !checkUserUploaded db p.Name today),
       ae ++ (l.filter (fun p => !decide (p.Email = ""))).map (fun p => p.Email)) := by
  induction l generalizing nu ae with
  | nil => simp [collectSummary]
  | cons p rest ih =>
    rw [collectSummary, ih]
    by_cases hu : checkUserUploaded db p.Name today = true <;>
      by_cases he : p.Email = "" <;> simp [hu, he]

theorem foldl_append_eq (a : String) (xs : List String) :
    xs.foldl (fun r s => r ++ s) a = a ++ String.join xs := by
  unfold String.join
  induction xs generalizing a with
  | nil => simp
  | cons x rest ih =>
    rw [List.foldl_cons, List.foldl_cons, ih, ih ("" ++ x), String.empty_append,
      String.append_assoc]

/-- The digest body is the heading, one line per listed person in order, and the
closing line. -/
theorem digestBody_eq (l : List Person) :
    digestBody l =
      "以下人员今日未完成打卡：\n\n" ++
        String.join (l.map (fun p => "姓名: " ++ p.Name ++ ", 邮箱: " ++ p.Email ++ "\n")) ++
        "\n此邮件为系统自动发送，请勿回复。" := by
  unfold digestBody
  congr 1
  rw [← foldl_append_eq, List.foldl_map]
  rfl

/-- What `checkInTask` does, by the three branches of its decision, in terms of
`checkUserUploaded`. -/
theorem checkInTask_cases (cfg : Config) (smtp : SmtpOracle) (today purgeToday : String)
    (re me : Option String) (w : World) :
    checkInTask cfg smtp today purgeToday re me w =
      (let w0 : World := { w with trace := w.trace ++ [Event.checkInTask today] }
       let notUploaded :=
         cfg.CheckInPersonList.filter (fun p => !checkUserUploaded w.db p.Name today)
       let allEmails :=
         (cfg.CheckInPersonList.filter (fun p => !decide (p.Email = ""))).map (fun p => p.Email)
       if notUploaded ≠ [] ∧ allEmails ≠ [] then
         if (sendEmail cfg smtp allEmails digestSubject (digestBody notUploaded) w0).1 = none
         then deleteUploads purgeToday re me
           (sendEmail cfg smtp allEmails digestSubject (digestBody notUploaded) w0).2
         else (sendEmail cfg smtp allEmails digestSubject (digestBody notUploaded) w0).2
       else if notUploaded = [] then deleteUploads purgeToday re me w0
       else w0) := by
  unfold checkInTask
  simp only [collectSummary_eq, List.nil_append]
  simp only [List.length_pos, ne_eq, List.length_eq_zero]
  split
  · next hc =>
    split
    · next e w1 heq =>
      rw [if_neg (by rw [heq]; simp), heq]
    · next w1 heq =>
      rw [if_pos (by rw [heq]), heq]
  · rfl

/-- The answer of `checkUserUploaded` is false exactly when the query fails or the
pair has no row. -/
theorem checkUserUploaded_not (db : Db) (name date : String) :
    (!checkUserUploaded db name date) =
      (db.fault.isSome || (db.recordsFor name date).isEmpty) := by
  unfold checkUserUploaded queryCount
  cases db.fault with
  | some e => rfl
  | none => cases db.recordsFor name date <;> simp

/-- The persons `checkUserUploaded` rejects, in terms of the table. -/
theorem notUploaded_eq (db : Db) (today : String) (l : List Person) :
    l.filter (fun p => !checkUserUploaded db p.Name today) =
      l.filter (fun p => db.fault.isSome || (db.recordsFor p.Name today).isEmpty) := by
  apply List.filter_congr
  intro p _
  exact checkUserUploaded_not db p.Name today

theorem deleteUploads_files (today : String) (me : Option String) (w : World) :
    (deleteUploads today none me w).files =
      w.files.filter (fun f => !underDir (filepathJoin [uploadDir, today]) f) := by
  unfold deleteUploads
  rw [String.append_empty]
  cases me <;> rfl

/-- The three branches of `checkInTask` in terms of the table. -/
theorem checkInTask_branches (cfg : Config) (smtp : SmtpOracle) (today purgeToday : String)
    (re me : Option String) (w : World) (lacking : List Person) (emails : List String)
    (w0 : World)
    (hl : lacking = cfg.CheckInPersonList.filter
      (fun p => w.db.fault.isSome || (w.db.recordsFor p.Name today).isEmpty))
    (he : emails =
      (cfg.CheckInPersonList.filter (fun p => !decide (p.Email = ""))).map (fun p => p.Email))
    (hw : w0 = { w with trace := w.trace ++ [Event.checkInTask today] }) :
    checkInTask cfg smtp today purgeToday re me w =
      (if lacking ≠ [] ∧ emails ≠ [] then
         if (sendEmail cfg smtp emails digestSubject (digestBody lacking) w0).1 = none
         then deleteUploads purgeToday re me
           (sendEmail cfg smtp emails digestSubject (digestBody lacking) w0).2
         else (sendEmail cfg smtp emails digestSubject (digestBody lacking) w0).2
       else if lacking = [] then deleteUploads purgeToday re me w0
       else w0) := by
  subst hl he hw
  rw [checkInTask_cases, notUploaded_eq]

/-- The calls of a summary pass. `checkInTask` calls `deleteUploads` exactly when
either nobody of the roster is rejected by `checkUserUploaded`, or somebody is, the
roster has a non-empty email and the digest send returned nil; it calls `sendEmail`
once, with the digest, exactly when somebody is rejected and the roster has a
non-empty email. -/
theorem checkInTask_calls (cfg : Config) (smtp : SmtpOracle)
    (today purgeToday : String) (removeErr mkdirErr : Option String) (w : World) :
    let lacking := cfg.CheckInPersonList.filter
      (fun p => w.db.fault.isSome || (w.db.recordsFor p.Name today).isEmpty)
    let emails :=
      (cfg.CheckInPersonList.filter (fun p => !decide (p.Email = ""))).map (fun p => p.Email)
    let w0 : World := { w with trace := w.trace ++ [Event.checkInTask today] }
    let sendResult := (sendEmail cfg smtp emails digestSubject (digestBody lacking) w0).1
    let after := checkInTask cfg smtp today purgeToday removeErr mkdirErr w
    purgeCalls after.trace =
      purgeCalls w.trace ++
        (if lacking = [] ∨ (lacking ≠ [] ∧ emails ≠ [] ∧ sendResult = none)
         then [filepathJoin [uploadDir, purgeToday]] else []) ∧
    sendEmailCalls after.trace =
      sendEmailCalls w.trace ++
        (if lacking ≠ [] ∧ emails ≠ [] then [(emails, digestSubject, digestBody lacking)]
         else []) := by
  intro lacking emails w0 sendResult after
  have hafter : after = (if lacking ≠ [] ∧ emails ≠ [] then
      if sendResult = none then deleteUploads purgeToday removeErr mkdirErr
          (sendEmail cfg smtp emails digestSubject (digestBody lacking) w0).2
      else (sendEmail cfg smtp emails digestSubject (digestBody lacking) w0).2
    else if lacking = [] then deleteUploads purgeToday removeErr mkdirErr w0 else w0) :=
    checkInTask_branches cfg smtp today purgeToday removeErr mkdirErr w lacking emails w0
      rfl rfl rfl
  have hw0p : purgeCalls w0.trace = purgeCalls w.trace := by
    simp [w0, purgeCalls, List.filterMap_append]
  have hw0s : sendEmailCalls w0.trace = sendEmailCalls w.trace := by
    simp [w0, sendEmailCalls, List.filterMap_append]
  have hdir : filepathJoin [uploadDir, purgeToday] ++ "" = filepathJoin [uploadDir, purgeToday] :=
    String.append_empty _
  by_cases hl : lacking = []
  · rw [hafter]
    simp [hl, deleteUploads_trace, purgeCalls, sendEmailCalls, List.filterMap_append, w0]
  · by_cases he : emails = []
    · rw [hafter]
      simp [hl, he, purgeCalls, sendEmailCalls, List.filterMap_append, w0]
    · by_cases hs : sendResult = none
      · rw [hafter]
        simp only [hl, he, hs, ne_eq, not_false_eq_true, and_self, if_true, or_true,
          false_or, deleteUploads_trace]
        constructor
        · rw [hdir]
          have := sendEmail_purgeCalls cfg smtp emails digestSubject (digestBody lacking) w0
          simp only [purgeCalls, List.filterMap_append] at this hw0p ⊢
          rw [this, hw0p]
          simp
        · have := sendEmail_calls cfg smtp emails digestSubject (digestBody lacking) w0
          simp only [sendEmailCalls, List.filterMap_append] at this hw0s ⊢
          rw [this, hw0s]
          simp
      · rw [hafter]
        simp only [hl, he, hs, ne_eq, not_false_eq_true, and_self, if_true, if_false,
          false_or, and_false]
        constructor
        · rw [sendEmail_purgeCalls, hw0p]; simp
        · rw [sendEmail_calls, hw0s]

/-- The files after a summary pass whose `os.RemoveAll` succeeds: those outside the
directory `deleteUploads` read when the pass purges, all of them when it does not. -/
theorem checkInTask_files (cfg : Config) (smtp : SmtpOracle)
    (today purgeToday : String) (mkdirErr : Option String) (w : World) :
    let lacking := cfg.CheckInPersonList.filter
      (fun p => w.db.fault.isSome || (w.db.recordsFor p.Name today).isEmpty)
    let emails :=
      (cfg.CheckInPersonList.filter (fun p => !decide (p.Email = ""))).map (fun p => p.Email)
    let w0 : World := { w with trace := w.trace ++ [Event.checkInTask today] }
    let sendResult := (sendEmail cfg smtp emails digestSubject (digestBody lacking) w0).1
    (checkInTask cfg smtp today purgeToday none mkdirErr w).files =
      (if lacking = [] ∨ (lacking ≠ [] ∧ emails ≠ [] ∧ sendResult = none)
       then w.files.filter (fun f => !underDir (filepathJoin [uploadDir, purgeToday]) f)
       else w.files) := by
  intro lacking emails w0 sendResult
  rw [checkInTask_branches cfg smtp today purgeToday none mkdirErr w lacking emails w0
    rfl rfl rfl]
  by_cases hl : lacking = []
  · simp [hl, deleteUploads_files, w0]
  · by_cases he : emails = []
    · simp [hl, he, w0]
    · by_cases hs : sendResult = none
      · have hs2 : (sendEmail cfg smtp emails digestSubject (digestBody lacking) w0).1 = none := hs
        simp only [hl, he, hs, hs2, ne_eq, not_false_eq_true, and_self, if_true, or_true,
          false_or, deleteUploads_files, sendEmail_files]
      · have hs2 : ¬ (sendEmail cfg smtp emails digestSubject (digestBody lacking) w0).1 = none :=
          hs
        simp only [hl, he, hs, hs2, ne_eq, not_false_eq_true, and_self, if_true, if_false,
          false_or, and_false, sendEmail_files]

/-! ## Claims on the two passes -/

/-- C7, as stated, fails: Alice has a row for 2024-01-01, the query of
`checkUserUploaded` returns an error, and `mentionTask` reminds her all the same. -/
theorem mentionTask_reminds_recorded_person :
    (lockedWorld.db.recordsFor "Alice" "2024-01-01").length = 1 ∧
    sendEmailCalls (mentionTask sampleConfig smtpAccepts "2024-01-01" lockedWorld).trace =
      [(["a@x"], "打卡提醒", mentionBody "Alice"),
       (["c@x"], "打卡提醒", mentionBody "Carol")] := by
  decide

/-- C7, amended: `mentionTask` calls `sendEmail` exactly once for each roster person
with a non-empty email for whom `checkUserUploaded` answers false, that is whose
query fails or who has no row for the date, in roster order, with the recipient
list `[person.Email]`, the fixed subject and the body naming the person, and for
nobody else; the calls are the same for every behaviour of the SMTP server. -/
theorem mentionTask_sends (cfg : Config) (smtp : SmtpOracle) (today : String) (w : World) :
    sendEmailCalls (mentionTask cfg smtp today w).trace =
      sendEmailCalls w.trace ++
        (cfg.CheckInPersonList.filter
          (fun p => (w.db.fault.isSome || (w.db.recordsFor p.Name today).isEmpty) &&
            !decide (p.Email = ""))).map
          (fun p => ([p.Email], "打卡提醒",
            "亲爱的 " ++ p.Name ++
              "：\n\n您今天还未完成打卡，请尽快上传打卡凭证。\n\n此邮件为系统自动发送，请勿回复。")) ∧
    ∀ smtp2 : SmtpOracle,
      sendEmailCalls (mentionTask cfg smtp2 today w).trace =
        sendEmailCalls (mentionTask cfg smtp today w).trace := by
  have key : ∀ o : SmtpOracle, sendEmailCalls (mentionTask cfg o today w).trace =
      sendEmailCalls w.trace ++
        (cfg.CheckInPersonList.filter
          (fun p => (w.db.fault.isSome || (w.db.recordsFor p.Name today).isEmpty) &&
            !decide (p.Email = ""))).map
          (fun p => ([p.Email], mentionSubject, mentionBody p.Name)) := by
    intro o
    unfold mentionTask
    rw [(mentionLoop_calls cfg o today cfg.CheckInPersonList _).2]
    have hf : List.filter (fun p : Person =>
          !checkUserUploaded w.db p.Name today && !decide (p.Email = ""))
          cfg.CheckInPersonList =
        List.filter (fun p : Person =>
          (w.db.fault.isSome || (w.db.recordsFor p.Name today).isEmpty) &&
            !decide (p.Email = ""))
          cfg.CheckInPersonList := by
      apply List.filter_congr
      intro p _
      rw [checkUserUploaded_not w.db p.Name today]
    simp only [hf]
    simp [sendEmailCalls, List.filterMap_append]
  exact ⟨key smtp, fun o => (key o).trans (key smtp).symm⟩

/-- Witness of C7 amended on the sample roster with an SMTP server that rejects
every message: Alice has a row, Bob has no address, Carol is reminded. -/
theorem mentionTask_sends_witness :
    sendEmailCalls (mentionTask sampleSmtpConfig smtpRejects "2024-01-01" sampleWorld).trace =
      [(["c@x"], "打卡提醒",
        "亲爱的 Carol：\n\n您今天还未完成打卡，请尽快上传打卡凭证。\n\n此邮件为系统自动发送，请勿回复。")] :=
  (mentionTask_sends sampleSmtpConfig smtpRejects "2024-01-01" sampleWorld).1.trans
    (by decide)

/-- C2, as stated, fails: Alice is the whole roster and has a row for 2024-01-01,
so nobody lacks a record; the query of `checkUserUploaded` returns an error,
`checkInTask` sends a digest, the send fails, and nothing is purged. -/
theorem summary_skips_purge_on_failed_query :
    (lockedWorld.db.recordsFor "Alice" "2024-01-01").length = 1 ∧
    (sendEmailCalls (checkInTask soloSmtpConfig smtpRejects "2024-01-01" "2024-01-01" none
      none lockedWorld).trace).length = 1 ∧
    purgeCalls (checkInTask soloSmtpConfig smtpRejects "2024-01-01" "2024-01-01" none none
      lockedWorld).trace = [] ∧
    (checkInTask soloSmtpConfig smtpRejects "2024-01-01" "2024-01-01" none none
      lockedWorld).files = ["uploads/2024-01-01/Alice.png"] := by
  decide

/-- C2, amended: call a roster person rejected when `checkUserUploaded` answers
false, that is when the query fails or the person has no row for the date. A pass
whose `deleteUploads` reads the date of the pass and whose `os.RemoveAll` succeeds
purges exactly when either nobody is rejected, or somebody is, the roster has a
non-empty email and the digest send returned nil: then `deleteUploads` is called
once, on `uploads/<date>`, and the files left are those outside that directory;
otherwise `deleteUploads` is not called and every file is kept. `sendEmail` is
called once, with the digest, exactly when somebody is rejected and the roster has
a non-empty email, and not at all otherwise. -/
theorem checkInTask_purge_decision (cfg : Config) (smtp : SmtpOracle)
    (today : String) (mkdirErr : Option String) (w : World) :
    let rejected := cfg.CheckInPersonList.filter
      (fun p => w.db.fault.isSome || (w.db.recordsFor p.Name today).isEmpty)
    let emails :=
      (cfg.CheckInPersonList.filter (fun p => !decide (p.Email = ""))).map (fun p => p.Email)
    let w0 : World := { w with trace := w.trace ++ [Event.checkInTask today] }
    let sendResult := (sendEmail cfg smtp emails digestSubject (digestBody rejected) w0).1
    let after := checkInTask cfg smtp today today none mkdirErr w
    purgeCalls after.trace =
      purgeCalls w.trace ++
        (if rejected = [] ∨ (rejected ≠ [] ∧ emails ≠ [] ∧ sendResult = none)
         then [filepathJoin [uploadDir, today]] else []) ∧
    after.files =
      (if rejected = [] ∨ (rejected ≠ [] ∧ emails ≠ [] ∧ sendResult = none)
       then w.files.filter (fun f => !underDir (filepathJoin [uploadDir, today]) f)
       else w.files) ∧
    sendEmailCalls after.trace =
      sendEmailCalls w.trace ++
        (if rejected ≠ [] ∧ emails ≠ [] then [(emails, digestSubject, digestBody rejected)]
         else []) := by
  intro rejected emails w0 sendResult after
  exact ⟨(checkInTask_calls cfg smtp today today none mkdirErr w).1,
    checkInTask_files cfg smtp today today mkdirErr w,
    (checkInTask_calls cfg smtp today today none mkdirErr w).2⟩

/-- Witness of C2 amended, twice on the sample process where Bob and Carol lack a
row: the server accepts the digest and Alice's evidence is purged; the server
rejects it and nothing is purged. -/
theorem checkInTask_purge_decision_witness :
    (purgeCalls (checkInTask sampleSmtpConfig smtpAccepts "2024-01-01" "2024-01-01" none none
        sampleWorld).trace = ["uploads/2024-01-01"] ∧
      (checkInTask sampleSmtpConfig smtpAccepts "2024-01-01" "2024-01-01" none none
        sampleWorld).files = []) ∧
    (purgeCalls (checkInTask sampleSmtpConfig smtpRejects "2024-01-01" "2024-01-01" none none
        sampleWorld).trace = [] ∧
      (checkInTask sampleSmtpConfig smtpRejects "2024-01-01" "2024-01-01" none none
        sampleWorld).files = ["uploads/2024-01-01/Alice.png"]) :=
  ⟨⟨(checkInTask_purge_decision sampleSmtpConfig smtpAccepts "2024-01-01" none
        sampleWorld).1.trans (by decide),
    (checkInTask_purge_decision sampleSmtpConfig smtpAccepts "2024-01-01" none
        sampleWorld).2.1.trans (by decide)⟩,
   ⟨(checkInTask_purge_decision sampleSmtpConfig smtpRejects "2024-01-01" none
        sampleWorld).1.trans (by decide),
    (checkInTask_purge_decision sampleSmtpConfig smtpRejects "2024-01-01" none
        sampleWorld).2.1.trans (by decide)⟩⟩

/-- C8, as stated, fails: Alice has a row for 2024-01-01, the query of
`checkUserUploaded` returns an error, and the digest lists her with Bob and
Carol. -/
theorem digest_lists_recorded_person :
    (lockedWorld.db.recordsFor "Alice" "2024-01-01").length = 1 ∧
    sendEmailCalls (checkInTask sampleConfig smtpAccepts "2024-01-01" "2024-01-01" none none
      lockedWorld).trace =
      [(["a@x", "c@x"], "每日打卡未完成人员通知",
        "以下人员今日未完成打卡：\n\n姓名: Alice, 邮箱: a@x\n姓名: Bob, 邮箱: \n姓名: Carol, 邮箱: c@x\n\n此邮件为系统自动发送，请勿回复。")] := by
  decide

/-- C8, amended: when `checkUserUploaded` answers false for at least one roster
person (the query fails or the person has no row for the date) and the roster has a
non-empty email, the digest handed to `sendEmail` by `checkInTask` goes to the
non-empty emails of the whole roster in roster order, and its body is the heading,
one line with name and email for each roster person so rejected, in roster order,
and the closing line; nobody else is listed. -/
theorem checkInTask_digest (cfg : Config) (smtp : SmtpOracle)
    (today purgeToday : String) (removeErr mkdirErr : Option String) (w : World)
    (hl : cfg.CheckInPersonList.filter
      (fun p => w.db.fault.isSome || (w.db.recordsFor p.Name today).isEmpty) ≠ [])
    (he : (cfg.CheckInPersonList.filter (fun p => !decide (p.Email = ""))).map
      (fun p => p.Email) ≠ []) :
    sendEmailCalls (checkInTask cfg smtp today purgeToday removeErr mkdirErr w).trace =
      sendEmailCalls w.trace ++
        [((cfg.CheckInPersonList.filter (fun p => !decide (p.Email = ""))).map
            (fun p => p.Email),
          "每日打卡未完成人员通知",
          "以下人员今日未完成打卡：\n\n" ++
            String.join ((cfg.CheckInPersonList.filter
                (fun p => w.db.fault.isSome || (w.db.recordsFor p.Name today).isEmpty)).map
              (fun p => "姓名: " ++ p.Name ++ ", 邮箱: " ++ p.Email ++ "\n")) ++
            "\n此邮件为系统自动发送，请勿回复。")] := by
  have h := (checkInTask_calls cfg smtp today purgeToday removeErr mkdirErr w).2
  simp only [] at h
  rw [if_pos ⟨hl, he⟩, digestBody_eq] at h
  exact h

/-- Witness of C8 amended, with an SMTP server that rejects the digest: Alice has a
row and is a recipient all the same; the body lists Bob and Carol. -/
theorem checkInTask_digest_witness :
    sendEmailCalls (checkInTask sampleSmtpConfig smtpRejects "2024-01-01" "2024-01-01" none
      none sampleWorld).trace =
      [(["a@x", "c@x"], "每日打卡未完成人员通知",
        "以下人员今日未完成打卡：\n\n姓名: Bob, 邮箱: \n姓名: Carol, 邮箱: c@x\n\n此邮件为系统自动发送，请勿回复。")] :=
  (checkInTask_digest sampleSmtpConfig smtpRejects "2024-01-01" "2024-01-01" none none
    sampleWorld (by decide) (by decide)).trans (by decide)

/-! ## Scheduler lemmas -/

theorem checkInTask_db (cfg : Config) (smtp : SmtpOracle) (today purgeToday : String)
    (re me : Option String) (w : World) :
    (checkInTask cfg smtp today purgeToday re me w).db = w.db := by
  rw [checkInTask_cases]
  simp only []
  split
  · split
    · rw [deleteUploads_db, sendEmail_db]
    · rw [sendEmail_db]
  · split
    · rw [deleteUploads_db]
    · rfl

theorem deleteUploads_runs (today : String) (re me : Option String) (w : World) :
    mentionRuns (deleteUploads today re me w) = mentionRuns w ∧
    checkInRuns (deleteUploads today re me w) = checkInRuns w := by
  simp [mentionRuns, checkInRuns, deleteUploads_trace, List.countP_append]

theorem checkInTask_runs (cfg : Config) (smtp : SmtpOracle) (today purgeToday : String)
    (re me : Option String) (w : World) :
    mentionRuns (checkInTask cfg smtp today purgeToday re me w) = mentionRuns w ∧
    checkInRuns (checkInTask cfg smtp today purgeToday re me w) = checkInRuns w + 1 := by
  have h0 : mentionRuns { w with trace := w.trace ++ [Event.checkInTask today] } =
      mentionRuns w ∧
      checkInRuns { w with trace := w.trace ++ [Event.checkInTask today] } =
      checkInRuns w + 1 := by
    simp [mentionRuns, checkInRuns, List.countP_append]
  rw [checkInTask_cases]
  simp only []
  split
  · split
    · rw [(deleteUploads_runs _ _ _ _).1, (deleteUploads_runs _ _ _ _).2,
        sendEmail_mentionRuns, sendEmail_checkInRuns]
      exact h0
    · rw [sendEmail_mentionRuns, sendEmail_checkInRuns]
      exact h0
  · split
    · rw [(deleteUploads_runs _ _ _ _).1, (deleteUploads_runs _ _ _ _).2]
      exact h0
    · exact h0

/-- One iteration enters each task exactly when the clock reading has the hour and
minute at which the mark read in that iteration fires on that day. -/
theorem schedulerStep_runs (parse : ClockParse) (dateClock : DateClock) (smtp : SmtpOracle)
    (w : World) (t : Tick) :
    mentionRuns (schedulerStep parse dateClock smtp w t) =
      mentionRuns w +
        (if markTarget parse dateClock t.now.date t.cfg.MentionTime =
            some (t.now.hour, t.now.minute) then 1 else 0) ∧
    checkInRuns (schedulerStep parse dateClock smtp w t) =
      checkInRuns w +
        (if markTarget parse dateClock t.now.date t.cfg.CheckInTime =
            some (t.now.hour, t.now.minute) then 1 else 0) := by
  have hiff : ∀ (h : Fin 24) (m : Fin 60),
      (some (dateClock t.now.date h m) = some (t.now.hour, t.now.minute)) ↔
        (t.now.hour = (dateClock t.now.date h m).1 ∧
          t.now.minute = (dateClock t.now.date h m).2) := by
    intro h m
    rw [Option.some.injEq]
    constructor
    · intro he; rw [he]; exact ⟨rfl, rfl⟩
    · intro ⟨h1, h2⟩; exact Prod.ext h1.symm h2.symm
  unfold schedulerStep markTarget
  have hm : ∀ x : Option (Fin 24 × Fin 60),
      mentionRuns (match x with
        | some (h, m) =>
          if t.now.hour = (dateClock t.now.date h m).1 ∧
              t.now.minute = (dateClock t.now.date h m).2 then
            mentionTask t.cfg smtp t.mentionNow.date w
          else w
        | none => w) =
        mentionRuns w +
          (if (match x with
              | some (h, m) => some (dateClock t.now.date h m)
              | none => none) = some (t.now.hour, t.now.minute) then 1 else 0) ∧
      checkInRuns (match x with
        | some (h, m) =>
          if t.now.hour = (dateClock t.now.date h m).1 ∧
              t.now.minute = (dateClock t.now.date h m).2 then
            mentionTask t.cfg smtp t.mentionNow.date w
          else w
        | none => w) = checkInRuns w := by
    intro x
    match x with
    | none => simp
    | some (h, m) =>
      by_cases hc : t.now.hour = (dateClock t.now.date h m).1 ∧
          t.now.minute = (dateClock t.now.date h m).2
      · simp only [if_pos hc, if_pos ((hiff h m).2 hc)]
        exact mentionTask_runs ..
      · simp only [if_neg hc, if_neg (fun he => hc ((hiff h m).1 he))]
        simp
  obtain ⟨hm1, hm2⟩ := hm (parse t.cfg.MentionTime)
  simp only [] at hm1 hm2 ⊢
  generalize (match parse t.cfg.MentionTime with
        | some (h, m) =>
          if t.now.hour = (dateClock t.now.date h m).1 ∧
              t.now.minute = (dateClock t.now.date h m).2 then
            mentionTask t.cfg smtp t.mentionNow.date w
          else w
        | none => w) = w1 at hm1 hm2 ⊢
  rw [← hm1, ← hm2]
  match parse t.cfg.CheckInTime with
  | none => simp
  | some (h, m) =>
    by_cases hc : t.now.hour = (dateClock t.now.date h m).1 ∧
        t.now.minute = (dateClock t.now.date h m).2
    · simp only [if_pos hc, if_pos ((hiff h m).2 hc)]
      exact checkInTask_runs ..
    · simp only [if_neg hc, if_neg (fun he => hc ((hiff h m).1 he))]
      simp

/-- The loop enters each task once for every iteration whose clock reading has the
hour and minute at which the mark read in that iteration fires on that day. -/
theorem startScheduler_runs (parse : ClockParse) (dateClock : DateClock) (smtp : SmtpOracle)
    (ticks : List Tick) (w : World) :
    mentionRuns (startScheduler parse dateClock smtp w ticks) =
      mentionRuns w + ticks.countP
        (fun t => decide (markTarget parse dateClock t.now.date t.cfg.MentionTime =
          some (t.now.hour, t.now.minute))) ∧
    checkInRuns (startScheduler parse dateClock smtp w ticks) =
      checkInRuns w + ticks.countP
        (fun t => decide (markTarget parse dateClock t.now.date t.cfg.CheckInTime =
          some (t.now.hour, t.now.minute))) := by
  unfold startScheduler
  induction ticks generalizing w with
  | nil => simp
  | cons t rest ih =>
    obtain ⟨i1, i2⟩ := ih (schedulerStep parse dateClock smtp w t)
    obtain ⟨s1, s2⟩ := schedulerStep_runs parse dateClock smtp w t
    rw [List.foldl_cons, i1, i2, s1, s2, List.countP_cons, List.countP_cons]
    constructor
    · by_cases hc : markTarget parse dateClock t.now.date t.cfg.MentionTime =
          some (t.now.hour, t.now.minute) <;>
        first | (simp [hc]; omega) | simp [hc]
    · by_cases hc : markTarget parse dateClock t.now.date t.cfg.CheckInTime =
          some (t.now.hour, t.now.minute) <;>
        first | (simp [hc]; omega) | simp [hc]

/-- A run split in two, as by stopping the process and starting it again, enters
the tasks as the run over all the iterations does. -/
theorem startScheduler_append (parse : ClockParse) (dateClock : DateClock)
    (smtp : SmtpOracle) (w : World) (xs ys : List Tick) :
    startScheduler parse dateClock smtp (startScheduler parse dateClock smtp w xs) ys =
      startScheduler parse dateClock smtp w (xs ++ ys) := by
  unfold startScheduler
  rw [List.foldl_append]

theorem minuteApart_head (a : Tick) (rest : List Tick) (h : minuteApart (a :: rest) = true) :
    minuteApart rest = true ∧ ∀ b ∈ rest, a.now.secOfDay + 60 ≤ b.now.secOfDay := by
  induction rest generalizing a with
  | nil => simp [minuteApart]
  | cons b rest ih =>
    simp only [minuteApart, Bool.and_eq_true, decide_eq_true_eq] at h
    obtain ⟨hab, hrest⟩ := h
    refine ⟨hrest, ?_⟩
    intro c hc
    rcases List.mem_cons.mp hc with rfl | hc
    · exact hab
    · have := (ih b hrest).2 c hc
      omega

/-- Among iterations a minute apart at most one reads a given hour and minute. -/
theorem countP_same_minute_le_one (h : Fin 24) (m : Fin 60) (ticks : List Tick)
    (hgap : minuteApart ticks = true) :
    ticks.countP (fun t => decide (t.now.hour = h ∧ t.now.minute = m)) ≤ 1 := by
  induction ticks with
  | nil => simp
  | cons a rest ih =>
    obtain ⟨hrest, hall⟩ := minuteApart_head a rest hgap
    rw [List.countP_cons]
    by_cases ha : a.now.hour = h ∧ a.now.minute = m
    · have hzero : rest.countP (fun t => decide (t.now.hour = h ∧ t.now.minute = m)) = 0 := by
        rw [List.countP_eq_zero]
        intro b hb hp
        simp only [decide_eq_true_eq] at hp
        have hsec := hall b hb
        have h1 : a.now.hour = b.now.hour := ha.1.trans hp.1.symm
        have h2 : a.now.minute = b.now.minute := ha.2.trans hp.2.symm
        have hs := a.now.second.isLt
        simp only [Time.secOfDay, h1, h2] at hsec
        omega
      rw [hzero]
      split <;> omega
    · have := ih hrest
      split
      · next hp => exact absurd (of_decide_eq_true hp) ha
      · omega

/-- Among iterations a minute apart at most one reads the hour and minute of a
given target. -/
theorem countP_target_le_one (target : Option (Fin 24 × Fin 60)) (ticks : List Tick)
    (hgap : minuteApart ticks = true) :
    ticks.countP (fun t => decide (target = some (t.now.hour, t.now.minute))) ≤ 1 := by
  match target with
  | none => simp
  | some (h, m) =>
    have := countP_same_minute_le_one h m ticks hgap
    have heq : (fun t : Tick => decide (some (h, m) = some (t.now.hour, t.now.minute))) =
        (fun t : Tick => decide (t.now.hour = h ∧ t.now.minute = m)) := by
      funext t
      simp only [Option.some.injEq, Prod.mk.injEq]
      congr 1
      exact propext ⟨fun ⟨a, b⟩ => ⟨a.symm, b.symm⟩, fun ⟨a, b⟩ => ⟨a.symm, b.symm⟩⟩
    rw [heq]
    exact this

/-! ## Witnesses of the store claims -/

/-- Witness of C1: Alice uploads twice more on 2024-01-01; one row remains, with the
path of the last upload. -/
theorem save_then_uploaded_and_overwrite_witness :
    saveCheckInRecord sampleDb "Alice" "2024-01-01" "uploads/2024-01-01/Alice.jpg"
      (sampleTime 8 30 0) = .ok sampleDbSaved ∧
    saveCheckInRecord sampleDbSaved "Alice" "2024-01-01" "uploads/2024-01-01/Alice.gif"
      (sampleTime 8 45 0) = .ok sampleDbSavedAgain ∧
    checkUserUploaded sampleDbSaved "Alice" "2024-01-01" = true ∧
    checkUserUploaded sampleDbSavedAgain "Alice" "2024-01-01" = true ∧
    (sampleDbSavedAgain.recordsFor "Alice" "2024-01-01").length = 1 ∧
    (sampleDbSavedAgain.recordsFor "Alice" "2024-01-01").map (fun r => r.file_path) =
      ["uploads/2024-01-01/Alice.gif"] :=
  ⟨rfl, rfl,
   save_then_uploaded_and_overwrite sampleDb sampleDbSaved sampleDbSavedAgain "Alice"
     "2024-01-01" "uploads/2024-01-01/Alice.jpg" "uploads/2024-01-01/Alice.gif"
     (sampleTime 8 30 0) (sampleTime 8 45 0) rfl rfl⟩

/-- Witness of C9: the rows of 2024-01-01 are deleted from the sample store. -/
theorem delete_records_clears_and_idempotent_witness :
    deleteCheckInRecords sampleDb "2024-01-01" = .ok sampleDbPurged ∧
    (∀ P : String, checkUserUploaded sampleDbPurged P "2024-01-01" = false) ∧
    deleteCheckInRecords sampleDbPurged "2024-01-01" = .ok sampleDbPurged :=
  ⟨rfl, delete_records_clears_and_idempotent sampleDb sampleDbPurged "2024-01-01" rfl⟩

/-! ## Claims on the scheduler -/

/-- C3, as stated, fails: two iterations on 2024-01-01 that both read 09:00 (the
clock was set back while the loop slept) with the reminder mark fixed at `09:00`
enter `mentionTask` twice. -/
theorem scheduler_same_minute_fires_twice :
    (∀ t ∈ [sampleTick (sampleTime 9 0 30) sampleConfig,
            sampleTick (sampleTime 9 0 20) sampleConfig],
      t.now.date = "2024-01-01" ∧ t.cfg.MentionTime = "09:00") ∧
    mentionRuns sampleWorld = 0 ∧
    mentionRuns (startScheduler parseClock plainDateClock smtpAccepts sampleWorld
      [sampleTick (sampleTime 9 0 30) sampleConfig,
       sampleTick (sampleTime 9 0 20) sampleConfig]) = 2 := by
  decide

/-- C3, amended: for a fixed date `D` and a fixed mark `M`, over every sequence of
iterations on day `D` whose clock readings are each at least one minute after the
one before, `mentionTask` (for `MentionTime = M`) and `checkInTask` (for
`CheckInTime = M`) are entered at most once. -/
theorem scheduler_at_most_once_minute_apart (parse : ClockParse) (dateClock : DateClock)
    (smtp : SmtpOracle) (w : World) (ticks : List Tick) (D M : String)
    (hday : ∀ t ∈ ticks, t.now.date = D)
    (hgap : minuteApart ticks = true) :
    ((∀ t ∈ ticks, t.cfg.MentionTime = M) →
      mentionRuns (startScheduler parse dateClock smtp w ticks) ≤ mentionRuns w + 1) ∧
    ((∀ t ∈ ticks, t.cfg.CheckInTime = M) →
      checkInRuns (startScheduler parse dateClock smtp w ticks) ≤ checkInRuns w + 1) := by
  obtain ⟨hm, hc⟩ := startScheduler_runs parse dateClock smtp ticks w
  have hbound := countP_target_le_one (markTarget parse dateClock D M) ticks hgap
  constructor
  · intro hM
    have heq : ticks.countP
        (fun t => decide (markTarget parse dateClock t.now.date t.cfg.MentionTime =
          some (t.now.hour, t.now.minute))) =
        ticks.countP (fun t => decide (markTarget parse dateClock D M =
          some (t.now.hour, t.now.minute))) := by
      apply List.countP_congr
      intro t ht
      rw [hM t ht, hday t ht]
    rw [hm, heq]
    omega
  · intro hM
    have heq : ticks.countP
        (fun t => decide (markTarget parse dateClock t.now.date t.cfg.CheckInTime =
          some (t.now.hour, t.now.minute))) =
        ticks.countP (fun t => decide (markTarget parse dateClock D M =
          some (t.now.hour, t.now.minute))) := by
      apply List.countP_congr
      intro t ht
      rw [hM t ht, hday t ht]
    rw [hc, heq]
    omega

/-- Witness of C3 amended: three iterations a minute apart around 09:00 enter
`mentionTask` once. -/
theorem scheduler_at_most_once_minute_apart_witness :
    (∀ t ∈ [sampleTick (sampleTime 8 59 30) sampleConfig,
            sampleTick (sampleTime 9 0 30) sampleConfig,
            sampleTick (sampleTime 9 1 30) sampleConfig],
      t.now.date = "2024-01-01") ∧
    minuteApart [sampleTick (sampleTime 8 59 30) sampleConfig,
                 sampleTick (sampleTime 9 0 30) sampleConfig,
                 sampleTick (sampleTime 9 1 30) sampleConfig] = true ∧
    (∀ t ∈ [sampleTick (sampleTime 8 59 30) sampleConfig,
            sampleTick (sampleTime 9 0 30) sampleConfig,
            sampleTick (sampleTime 9 1 30) sampleConfig],
      t.cfg.MentionTime = "09:00") ∧
    mentionRuns (startScheduler parseClock plainDateClock smtpAccepts sampleWorld
      [sampleTick (sampleTime 8 59 30) sampleConfig,
       sampleTick (sampleTime 9 0 30) sampleConfig,
       sampleTick (sampleTime 9 1 30) sampleConfig]) ≤ mentionRuns sampleWorld + 1 :=
  ⟨by decide, by decide, by decide,
   (scheduler_at_most_once_minute_apart parseClock plainDateClock smtpAccepts sampleWorld
      [sampleTick (sampleTime 8 59 30) sampleConfig,
       sampleTick (sampleTime 9 0 30) sampleConfig,
       sampleTick (sampleTime 9 1 30) sampleConfig] "2024-01-01" "09:00"
      (by decide) (by decide)).1 (by decide)⟩

/-- C4, as stated, fails: the reminder fires at 09:00 under the mark `09:00`. The
mark in `config.json` is then changed to `09:05` and the process started again,
which is how `main` loads changed settings; the iteration at 09:05 of the same day
enters `mentionTask` a second time. -/
theorem scheduler_changed_mark_fires_again :
    mentionRuns sampleWorld = 0 ∧
    mentionRuns (startScheduler parseClock plainDateClock smtpAccepts sampleWorld
      [sampleTick (sampleTime 9 0 0) (configWithMention "09:00")]) = 1 ∧
    mentionRuns (startScheduler parseClock plainDateClock smtpAccepts
      (startScheduler parseClock plainDateClock smtpAccepts sampleWorld
        [sampleTick (sampleTime 9 0 0) (configWithMention "09:00")])
      [sampleTick (sampleTime 9 5 0) (configWithMention "09:05")]) = 2 := by
  decide

/-- C4, amended: let a trigger have fired on day `D` in the iteration `first`, and
let the process then be started again with the mark changed to `M2`, so that the
later iterations of day `D` read `M2`. The engine is entered again once for every
later iteration whose clock reading has the hour and minute of `time.Date` of day
`D` with the hour and minute of `M2`, and by no other later iteration. -/
theorem scheduler_after_changed_mark (parse : ClockParse) (dateClock : DateClock)
    (smtp : SmtpOracle) (w : World) (first : Tick) (later : List Tick) (D M2 : String) :
    (first.now.date = D ∧
        markTarget parse dateClock D first.cfg.MentionTime =
          some (first.now.hour, first.now.minute) →
      (∀ t ∈ later, t.now.date = D ∧ t.cfg.MentionTime = M2) →
      mentionRuns (startScheduler parse dateClock smtp
          (startScheduler parse dateClock smtp w [first]) later) =
        mentionRuns w + 1 +
          later.countP (fun t => decide (markTarget parse dateClock D M2 =
            some (t.now.hour, t.now.minute)))) ∧
    (first.now.date = D ∧
        markTarget parse dateClock D first.cfg.CheckInTime =
          some (first.now.hour, first.now.minute) →
      (∀ t ∈ later, t.now.date = D ∧ t.cfg.CheckInTime = M2) →
      checkInRuns (startScheduler parse dateClock smtp
          (startScheduler parse dateClock smtp w [first]) later) =
        checkInRuns w + 1 +
          later.countP (fun t => decide (markTarget parse dateClock D M2 =
            some (t.now.hour, t.now.minute)))) := by
  rw [startScheduler_append]
  obtain ⟨hm, hc⟩ := startScheduler_runs parse dateClock smtp ([first] ++ later) w
  constructor
  · intro ⟨hD, hfired⟩ hM
    have heq : later.countP
        (fun t => decide (markTarget parse dateClock t.now.date t.cfg.MentionTime =
          some (t.now.hour, t.now.minute))) =
        later.countP (fun t => decide (markTarget parse dateClock D M2 =
          some (t.now.hour, t.now.minute))) := by
      apply List.countP_congr
      intro t ht
      rw [(hM t ht).1, (hM t ht).2]
    rw [hm, List.singleton_append, List.countP_cons, heq, hD]
    simp only [hfired, decide_True, if_true]
    omega
  · intro ⟨hD, hfired⟩ hM
    have heq : later.countP
        (fun t => decide (markTarget parse dateClock t.now.date t.cfg.CheckInTime =
          some (t.now.hour, t.now.minute))) =
        later.countP (fun t => decide (markTarget parse dateClock D M2 =
          some (t.now.hour, t.now.minute))) := by
      apply List.countP_congr
      intro t ht
      rw [(hM t ht).1, (hM t ht).2]
    rw [hc, List.singleton_append, List.countP_cons, heq, hD]
    simp only [hfired, decide_True, if_true]
    omega

/-- Witness of C4 amended on 2024-03-31 in a location whose clocks go from 02:00 to
03:00: fired at 01:30, the mark is changed to `02:30`, a time that does not exist
that day; of the iterations at 03:29:30, 03:30:30 and 03:31:30 the one at 03:30
fires again. -/
theorem scheduler_after_changed_mark_witness :
    ((sampleTick (marchTime 1 30 30) (configWithMention "01:30")).now.date = "2024-03-31" ∧
      markTarget parseClock springForwardClock "2024-03-31"
        (sampleTick (marchTime 1 30 30) (configWithMention "01:30")).cfg.MentionTime =
        some ((marchTime 1 30 30).hour, (marchTime 1 30 30).minute)) ∧
    (∀ t ∈ [sampleTick (marchTime 3 29 30) (configWithMention "02:30"),
            sampleTick (marchTime 3 30 30) (configWithMention "02:30"),
            sampleTick (marchTime 3 31 30) (configWithMention "02:30")],
      t.now.date = "2024-03-31" ∧ t.cfg.MentionTime = "02:30") ∧
    mentionRuns (startScheduler parseClock springForwardClock smtpAccepts
      (startScheduler parseClock springForwardClock smtpAccepts sampleWorld
        [sampleTick (marchTime 1 30 30) (configWithMention "01:30")])
      [sampleTick (marchTime 3 29 30) (configWithMention "02:30"),
       sampleTick (marchTime 3 30 30) (configWithMention "02:30"),
       sampleTick (marchTime 3 31 30) (configWithMention "02:30")]) = 2 :=
  ⟨by decide, by decide,
   ((scheduler_after_changed_mark parseClock springForwardClock smtpAccepts sampleWorld
      (sampleTick (marchTime 1 30 30) (configWithMention "01:30"))
      [sampleTick (marchTime 3 29 30) (configWithMention "02:30"),
       sampleTick (marchTime 3 30 30) (configWithMention "02:30"),
       sampleTick (marchTime 3 31 30) (configWithMention "02:30")]
      "2024-03-31" "02:30").1 (by decide) (by decide)).trans (by decide)⟩

/-! ## Where the code departs from the claims -/

/-- C5 at a failing input: Alice, the whole roster, has a row and a file for
2024-01-01; `checkInTask` purges, the file is gone, and `checkUserUploaded` still
answers true because the rows of the date are left in the store. -/
theorem purge_leaves_records :
    purgeCalls (checkInTask soloConfig smtpAccepts "2024-01-01" "2024-01-01" none none
      sampleWorld).trace = ["uploads/2024-01-01"] ∧
    (checkInTask soloConfig smtpAccepts "2024-01-01" "2024-01-01" none none
      sampleWorld).files = [] ∧
    checkUserUploaded (checkInTask soloConfig smtpAccepts "2024-01-01" "2024-01-01" none none
      sampleWorld).db "Alice" "2024-01-01" = true := by
  decide

/-- C6 at a failing input: Carol uploads an image while the store returns an error;
`saveCheckInRecord` fails, the handler answers 200 with the success message, and
no row was written. -/
theorem upload_reports_success_on_store_error :
    saveCheckInRecord faultyWorld.db "Carol" "2024-01-01" "uploads/2024-01-01/Carol.png"
      (sampleTime 10 0 0) = .error "database is locked" ∧
    (uploadCheckInProof sampleConfig
      { name := "Carol", image := some { Filename := "proof.png", ContentType := "image/png" } }
      "2024-01-01" (sampleTime 10 0 0) none none faultyWorld).1 =
      { Code := 200, Message := "上传成功",
        Data := [("date", "2024-01-01"), ("filePath", "uploads/2024-01-01/Carol.png"),
                 ("name", "Carol")] } ∧
    (uploadCheckInProof sampleConfig
      { name := "Carol", image := some { Filename := "proof.png", ContentType := "image/png" } }
      "2024-01-01" (sampleTime 10 0 0) none none faultyWorld).2.db.rows = [] := by
  refine ⟨rfl, ?_, ?_⟩ <;> decide

/-- C10 at a failing input: `checkInTask` reads 2024-01-01, sends the digest for
that day and the send succeeds; `deleteUploads` then reads the clock after
midnight, so the directory of 2024-01-02 is removed and the evidence of
2024-01-01 stays. -/
theorem purge_uses_later_clock_reading :
    (sendEmailCalls (checkInTask sampleSmtpConfig smtpAccepts "2024-01-01" "2024-01-02" none
      none sampleWorld).trace).length = 1 ∧
    purgeCalls (checkInTask sampleSmtpConfig smtpAccepts "2024-01-01" "2024-01-02" none none
      sampleWorld).trace = ["uploads/2024-01-02"] ∧
    (checkInTask sampleSmtpConfig smtpAccepts "2024-01-01" "2024-01-02" none none
      sampleWorld).files = ["uploads/2024-01-01/Alice.png"] := by
  decide

end DailyCheckIn
